import Mathlib

/-!
Verification of the query-synthesis and relevance-filtering pipeline of the
BotBETA book-recommendation service.

The Python sources are shallowly embedded over `List Char`:

* `sql_utils.py`  — `extract_sql_query`, `clean_sql` (including the
  `fix_like_pattern` rewrite done through `re.sub`);
* `deepseek1.py`  — `get_sql_from_deepseek` (loading-line extraction, code-fence
  stripping, shape validation via `re.match`, deterministic fallback query,
  SQL cache) and `filter_books_with_deepseek` (truncation to 20 candidates,
  filter cache, JSON-array extraction, bounds-checked index parsing,
  fail-open fallbacks);
* `book_service.py` — the post-execution part of
  `BookRecommendationService.recommend_books` (index selection with bounds
  check, first-15 fallback on a filter exception, degraded messages).

External effects are parameters: a language-model call is an
`Option (List Char × Nat)` (response text and token count, `none` = transport
failure/timeout), raised exceptions are `none` results, and the process-wide
caches are explicit state threaded through the functions.  Regular-expression
steps are embedded as character scanners that follow the Python `re` semantics
of the concrete patterns used by the source (leftmost match, greedy/lazy
quantifiers as each pattern demands); recursion that consumes a non-constant
amount of input uses a fuel argument that is always started at the input
length, which is an upper bound for the number of steps.
-/

/-- The single-quote character `'` (Python `"'"`), written via its code point. -/
def sqc : Char := Char.ofNat 39

/-- Python `\s` / `str.strip()` whitespace: space, tab, newline, CR, VT, FF. -/
def pySpace (c : Char) : Bool :=
  (c == ' ') || (c == '\t') || (c == '\n') || (c == '\r') ||
  (c == Char.ofNat 11) || (c == Char.ofNat 12)

/-- Python `\w` word character (ASCII range): letter, digit or underscore. -/
def isWordChar (c : Char) : Bool := c.isAlphanum || c == '_'

/-- Case-sensitive "starts with" over char lists. -/
def startsWithL : List Char → List Char → Bool
  | [], _ => true
  | _ :: _, [] => false
  | p :: ps, c :: cs => (p == c) && startsWithL ps cs

/-- Case-insensitive "starts with" over char lists (models `re.IGNORECASE`). -/
def startsWithCI : List Char → List Char → Bool
  | [], _ => true
  | _ :: _, [] => false
  | p :: ps, c :: cs => (p.toLower == c.toLower) && startsWithCI ps cs

/-- Substring test: some suffix of `s` starts with `pat`. -/
def containsSub (pat s : List Char) : Bool := s.tails.any (fun t => startsWithL pat t)

/-- Python `str.strip()`: drop leading and trailing whitespace. -/
def pyStrip (s : List Char) : List Char :=
  ((s.dropWhile pySpace).reverse.dropWhile pySpace).reverse

/-- Embedding of `re.sub(r'```sql|```', '', s)` (used at `sql_utils.py:10` and
`deepseek1.py:179`): remove every occurrence of a code-fence marker, trying the
longer alternative first, scanning left to right.  Fuel starts at `s.length`. -/
def fenceSubAux : Nat → List Char → List Char
  | 0, s => s
  | _ + 1, [] => []
  | f + 1, c :: rest =>
    if startsWithL ("```sql").data (c :: rest) then fenceSubAux f ((c :: rest).drop 6)
    else if startsWithL ("```").data (c :: rest) then fenceSubAux f ((c :: rest).drop 3)
    else c :: fenceSubAux f rest

/-- Chars of `s` up to and including the first `';'`, or `none` if there is none
(the lazy `.*?;` tail of the pattern at `sql_utils.py:5`). -/
def upToSemi : List Char → Option (List Char)
  | [] => none
  | c :: rest => if c == ';' then some [c] else (upToSemi rest).map (fun t => c :: t)

/-- Match of `re.search(r'SELECT\s+.*?;', text, DOTALL|IGNORECASE)` anchored at
the current position: the literal `SELECT` (case-insensitive), at least one
whitespace char, then the shortest tail ending in `';'`. -/
def selMatchAt (s : List Char) : Option (List Char) :=
  if startsWithCI ("select").data s then
    if ((s.drop 6).takeWhile pySpace).isEmpty then none
    else (upToSemi (s.drop 6)).map (fun t => s.take 6 ++ t)
  else none

/-- Leftmost match for the `SELECT\s+.*?;` search of `extract_sql_query`. -/
def selSearch : List Char → Option (List Char)
  | [] => none
  | c :: rest =>
    match selMatchAt (c :: rest) with
    | some m => some m
    | none => selSearch rest

/-- Embedding of `extract_sql_query` (`sql_utils.py:3-11`): return the first
`SELECT ... ;` span if present, else strip code-fence markers and surrounding
whitespace. -/
def extract_sql_query (s : List Char) : List Char :=
  match selSearch s with
  | some m => m
  | none => pyStrip (fenceSubAux s.length s)

/-- One pass of `re.sub(r"\s+", " ", s)`: every maximal whitespace run becomes
a single space.  The boolean records whether the previous char was whitespace. -/
def collapseAux : Bool → List Char → List Char
  | _, [] => []
  | prevSpace, c :: rest =>
    if pySpace c then
      if prevSpace then collapseAux true rest else ' ' :: collapseAux true rest
    else c :: collapseAux false rest

/-- Embedding of `re.sub(r"\s+", " ", s).strip()` (`sql_utils.py:19`). -/
def collapseWs (s : List Char) : List Char := pyStrip (collapseAux false s)

/-- Head test for the literal `%'` (the closing two chars of the LIKE pattern). -/
def isPctQuote : List Char → Bool
  | a :: b :: _ => (a == '%') && (b == sqc)
  | _ => false

/-- The lazy group `([^']+?)%'` of the pattern at `sql_utils.py:37`: consume the
shortest non-empty run of non-quote chars that is followed by `%'`, returning
the captured run and the rest after the closing `%'`. -/
def segScan : List Char → Option (List Char × List Char)
  | [] => none
  | c :: rest =>
    if c == sqc then none
    else if isPctQuote rest then some ([c], rest.drop 2)
    else
      match segScan rest with
      | some (p, r) => some (c :: p, r)
      | none => none

/-- Match of `(\w+)\s+LIKE\s+'%([^']+?)%'` anchored at the current position
(no flags, so `LIKE` is case-sensitive): greedy word run, whitespace, `LIKE`,
whitespace, `'%`, lazy pattern, `%'`.  Returns (column, pattern, rest). -/
def matchLikeAt (s : List Char) : Option (List Char × List Char × List Char) :=
  let col := s.takeWhile isWordChar
  let s1 := s.dropWhile isWordChar
  if col.isEmpty then none
  else if (s1.takeWhile pySpace).isEmpty then none
  else
    match s1.dropWhile pySpace with
    | 'L' :: 'I' :: 'K' :: 'E' :: s3 =>
      if (s3.takeWhile pySpace).isEmpty then none
      else
        match s3.dropWhile pySpace with
        | a :: b :: s5 =>
          if (a == sqc) && (b == '%') then
            match segScan s5 with
            | some (p, r) => some (col, p, r)
            | none => none
          else none
        | _ => none
    | _ => none

/-- Python `pattern.split('%')` (keeping empty segments, like `str.split`). -/
def splitPct : List Char → List (List Char)
  | [] => [[]]
  | c :: rest =>
    if c == '%' then [] :: splitPct rest
    else
      match splitPct rest with
      | [] => [[c]]
      | g :: gs => (c :: g) :: gs

/-- The replacement text `f"{column} LIKE '%{pattern}%'"`. -/
def likeClause (col p : List Char) : List Char :=
  col ++ (" LIKE ").data ++ [sqc, '%'] ++ p ++ ['%', sqc]

/-- Embedding of `fix_like_pattern` (`sql_utils.py:22-34`): if the captured
pattern contains `%` and splits into more than one non-empty term, emit a
parenthesized `AND` conjunction of one LIKE clause per term; otherwise emit
the clause unchanged. -/
def fix_like_pattern (col p : List Char) : List Char :=
  if '%' ∈ p then
    let terms := (splitPct p).filter (fun t => !t.isEmpty)
    if 1 < terms.length then
      '(' :: (List.intercalate ((" AND ").data) (terms.map (fun t => likeClause col t))) ++ [')']
    else likeClause col p
  else likeClause col p

/-- Embedding of `re.sub(r'(\w+)\s+LIKE\s+\'%([^\']+?)%\'', fix_like_pattern, s)`
(`sql_utils.py:37`): scan left to right, replace each leftmost match and resume
after it.  Fuel starts at the input length; each step consumes at least one
char, so the fuel never runs out when started there. -/
def likeSubAux : Nat → List Char → List Char
  | 0, s => s
  | _ + 1, [] => []
  | f + 1, c :: rest =>
    match matchLikeAt (c :: rest) with
    | some (col, p, r) => fix_like_pattern col p ++ likeSubAux f r
    | none => c :: likeSubAux f rest

/-- The LIKE-pattern rewriting pass applied by `clean_sql`. -/
def likeSub (s : List Char) : List Char := likeSubAux s.length s

/-- Python `s.rstrip(";'")`: drop trailing chars that are `';'` or `'`. -/
def rstripTerm (s : List Char) : List Char :=
  (s.reverse.dropWhile (fun c => (c == ';') || (c == sqc))).reverse

/-- Python `s.endswith(";")`. -/
def endsSemi (s : List Char) : Bool :=
  match s.getLast? with
  | some c => c == ';'
  | none => false

/-- The quote-balance repair of `clean_sql` (`sql_utils.py:40-43`): if the
count of single quotes is odd, rstrip `";'"` chars, append one quote, and
append `';'` if the result does not end with it. -/
def quoteRepair (s : List Char) : List Char :=
  if s.count sqc % 2 ≠ 0 then
    if !endsSemi (rstripTerm s ++ [sqc]) then (rstripTerm s ++ [sqc]) ++ [';']
    else rstripTerm s ++ [sqc]
  else s

/-- Embedding of `clean_sql` (`sql_utils.py:14-49`): extract, collapse
whitespace, rewrite LIKE patterns, repair quotes, ensure a trailing `';'`. -/
def clean_sql (s : List Char) : List Char :=
  if !endsSemi (quoteRepair (likeSub (collapseWs (extract_sql_query s)))) then
    quoteRepair (likeSub (collapseWs (extract_sql_query s))) ++ [';']
  else quoteRepair (likeSub (collapseWs (extract_sql_query s)))

/-- Chars up to the first `'"'` (the lazy `(.*?)"` tail of the loading-line
pattern), returning the capture and the rest after the closing quote. -/
def takeUntilDQ : List Char → Option (List Char × List Char)
  | [] => none
  | c :: rest =>
    if c == '"' then some ([], rest)
    else (takeUntilDQ rest).map (fun pr => (c :: pr.1, pr.2))

/-- Match of `loading_line:\s*"(.*?)"` (`deepseek1.py:173`, `re.DOTALL`)
anchored at the current position: the literal marker, optional whitespace, an
opening quote, the shortest capture up to a closing quote.  Returns the capture
and the rest after the match. -/
def matchLoadAt (s : List Char) : Option (List Char × List Char) :=
  if startsWithL ("loading_line:").data s then
    match (s.drop 13).dropWhile pySpace with
    | c :: u => if c == '"' then takeUntilDQ u else none
    | [] => none
  else none

/-- `re.search` for the loading-line pattern: capture of the leftmost match. -/
def loadSearch : List Char → Option (List Char)
  | [] => none
  | c :: rest =>
    match matchLoadAt (c :: rest) with
    | some (cap, _) => some cap
    | none => loadSearch rest

/-- `re.sub(r'loading_line:\s*".*?"', '', s)` (`deepseek1.py:176`): delete
every occurrence, scanning left to right.  Fuel starts at the input length. -/
def loadSubAux : Nat → List Char → List Char
  | 0, s => s
  | _ + 1, [] => []
  | f + 1, c :: rest =>
    match matchLoadAt (c :: rest) with
    | some (_, r) => loadSubAux f r
    | none => c :: loadSubAux f rest

/-- The two source tables named in the validation pattern at `deepseek1.py:181`. -/
def tblProductSearch : List Char := ("Table_ProductSearchNewSearch").data

/-- The second known source table. -/
def tblTopBooks : List Char := ("Table_TopBooksData").data

/-- The `FROM\s+(?:Table_ProductSearchNewSearch|Table_TopBooksData)` part of the
validation pattern, anchored at the current position (case-insensitive). -/
def checkFrom (s : List Char) : Bool :=
  startsWithCI ("from").data s &&
  (!(((s.drop 4).takeWhile pySpace).isEmpty) &&
    (startsWithCI tblProductSearch ((s.drop 4).dropWhile pySpace) ||
     startsWithCI tblTopBooks ((s.drop 4).dropWhile pySpace)))

/-- The lazy `.*?FROM\s+(...)` scan: some suffix starting here matches the
FROM clause. -/
def scanFrom : List Char → Bool
  | [] => false
  | c :: rest => checkFrom (c :: rest) || scanFrom rest

/-- Embedding of the shape validation at `deepseek1.py:181`:
`re.match(r'SELECT\s+TOP\s+\d+\s+.*?FROM\s+(?:Table_ProductSearchNewSearch|Table_TopBooksData)', s, IGNORECASE|DOTALL)`.
`re.match` anchors at the start of the string, so the match must begin with
`SELECT` immediately. -/
def validateSql (s : List Char) : Bool :=
  startsWithCI ("select").data s &&
  (!(((s.drop 6).takeWhile pySpace).isEmpty) &&
    (startsWithCI ("top").data ((s.drop 6).dropWhile pySpace) &&
      (!(((((s.drop 6).dropWhile pySpace).drop 3).takeWhile pySpace).isEmpty) &&
        (!((((((s.drop 6).dropWhile pySpace).drop 3).dropWhile pySpace).takeWhile Char.isDigit).isEmpty) &&
          (!(((((((s.drop 6).dropWhile pySpace).drop 3).dropWhile pySpace).dropWhile Char.isDigit).takeWhile pySpace).isEmpty) &&
            scanFrom ((((((s.drop 6).dropWhile pySpace).drop 3).dropWhile pySpace).dropWhile Char.isDigit).dropWhile pySpace))))))

/-- A row-limit modifier `TOP <digits>` (case-insensitive, whitespace between)
anchored at the current position; used to state what "missing the row-limit
modifier" means. -/
def topAt (t : List Char) : Bool :=
  startsWithCI ("top").data t &&
  (!(((t.drop 3).takeWhile pySpace).isEmpty) &&
    !((((t.drop 3).dropWhile pySpace).takeWhile Char.isDigit).isEmpty))

/-- The text contains a row-limit modifier `TOP <digits>` somewhere. -/
def hasTopNum (s : List Char) : Bool := s.tails.any topAt

/-- Python `user_query.split()`: split on whitespace runs, no empty tokens.
Fuel starts at the input length. -/
def pySplitAux : Nat → List Char → List (List Char)
  | 0, _ => []
  | _ + 1, [] => []
  | f + 1, c :: rest =>
    if pySpace c then pySplitAux f rest
    else ((c :: rest).takeWhile (fun d => !pySpace d)) ::
      pySplitAux f ((c :: rest).dropWhile (fun d => !pySpace d))

/-- Python `user_query.split()`. -/
def pySplit (s : List Char) : List (List Char) := pySplitAux s.length s

/-- The fixed part of the fallback query built at `deepseek1.py:184`. -/
def fallbackBase (w : List Char) : List Char :=
  ("SELECT TOP 15 Product_Title, AuthorName1, Category_Name, Product_SalePrice, Product_TitleURl, ISBN13 FROM Table_ProductSearchNewSearch WHERE Product_Title LIKE ").data
    ++ [sqc, '%'] ++ w ++ ['%', sqc]

/-- The OR extension appended at `deepseek1.py:186` when the user query has
more than one whitespace-delimited token. -/
def fallbackOr (w : List Char) : List Char :=
  (" OR AuthorName1 LIKE ").data ++ [sqc, '%'] ++ w ++ ['%', sqc] ++
  (" OR Category_Name LIKE ").data ++ [sqc, '%'] ++ w ++ ['%', sqc]

/-- The in-memory SQL cache (`sql_cache` in `deepseek1.py`): insertion-ordered
key/value pairs from user query to (sql text, optional loading line). -/
structure SqlCache where
  entries : List (List Char × (List Char × Option (List Char)))

/-- `MAX_CACHE_SIZE` (`deepseek1.py:33`). -/
def MAX_CACHE_SIZE : Nat := 1000

/-- Dictionary lookup in the SQL cache. -/
def sqlCacheLookup (c : SqlCache) (k : List Char) : Option (List Char × Option (List Char)) :=
  (c.entries.find? (fun e => decide (e.1 = k))).map (fun e => e.2)

/-- The response-parsing of `get_sql_from_deepseek` (`deepseek1.py:164-179`):
strip the content, extract and remove the loading line, strip code fences.
Returns (loading line, candidate sql text). -/
def parseModelContent (content : List Char) : Option (List Char) × List Char :=
  let c := pyStrip content
  let mLoad := loadSearch c
  let sql0 := if mLoad.isSome then pyStrip (loadSubAux c.length c) else c
  (mLoad.map pyStrip, pyStrip (fenceSubAux sql0.length sql0))

/-- Embedding of `get_sql_from_deepseek` (`deepseek1.py:42-198`).  The language
model call is the parameter `api` (`none` = timeout or transport error, which
the source turns into a raised exception).  The overall result is `none` when
the Python function raises (API failure, or the `IndexError` from
`user_query.split()[0]` on a token-less query in the fallback branch), and
`some ((sql, loading_line, tokens), cache')` when it returns. -/
def get_sql_from_deepseek (cache : SqlCache) (uq : List Char)
    (api : Option (List Char × Nat)) :
    Option ((List Char × Option (List Char) × Nat) × SqlCache) :=
  match sqlCacheLookup cache uq with
  | some (sql, ll) => some ((sql, ll, 0), cache)
  | none =>
    match api with
    | none => none
    | some (content, tokens) =>
      let pc := parseModelContent content
      let ll := pc.1
      let sqlText := pc.2
      let withFallback : Option (List Char) :=
        if validateSql sqlText then some sqlText
        else
          match pySplit uq with
          | [] => none
          | w :: rest =>
            some (fallbackBase w ++ (if rest.isEmpty then [] else fallbackOr w))
      match withFallback with
      | none => none
      | some sqlF =>
        let cache' :=
          if cache.entries.length < MAX_CACHE_SIZE then ⟨cache.entries ++ [(uq, (sqlF, ll))]⟩
          else cache
        some ((sqlF, ll, tokens), cache')

/-- Digits to a natural number (the value `json.loads` gives a digit run). -/
def digitsToNat (ds : List Char) : Nat :=
  ds.foldl (fun a c => a * 10 + (c.toNat - 48)) 0

/-- A digit run is a valid JSON integer literal exactly when it is non-empty
and has no superfluous leading zero: `0` is valid, `02` is not
(`json.loads` raises `JSONDecodeError` on `[02]`). -/
def jsonNumOk : List Char → Bool
  | [] => false
  | [_] => true
  | c :: _ :: _ => !(c == '0')

/-- The `(?:,\s*\d+)*` group of the array pattern at `deepseek1.py:287`,
matched greedily: parse as many `, <digits>` groups as possible, returning
their raw digit runs (so JSON validity can still be judged) and the rest.
Fuel starts at the input length. -/
def groupsScan : Nat → List Char → List (List Char) × List Char
  | 0, s => ([], s)
  | _ + 1, [] => ([], [])
  | f + 1, c :: rest =>
    if c == ',' then
      let u := rest.dropWhile pySpace
      let ds := u.takeWhile Char.isDigit
      if ds.isEmpty then ([], c :: rest)
      else
        let pr := groupsScan f (u.dropWhile Char.isDigit)
        (ds :: pr.1, pr.2)
    else ([], c :: rest)

/-- Match of `\[\s*\d*(?:,\s*\d+)*\s*\]` anchored at the current position,
followed by the `json.loads` of the matched text (`deepseek1.py:287-290`).
`none`: the pattern does not match here; `some none`: it matches but the text
is not valid JSON, raising `JSONDecodeError` — either a leading comma with no
first number (`[,1]`) or a number with a superfluous leading zero (`[02]`,
`[1,02]`); `some (some xs)`: the parsed array. -/
def arrMatchAt (s : List Char) : Option (Option (List Nat)) :=
  match s with
  | '[' :: t =>
    let t1 := t.dropWhile pySpace
    let ds := t1.takeWhile Char.isDigit
    let t2 := t1.dropWhile Char.isDigit
    let pr := groupsScan t2.length t2
    match pr.2.dropWhile pySpace with
    | ']' :: _ =>
      if ds.isEmpty then
        if pr.1.isEmpty then some (some []) else some none
      else
        if jsonNumOk ds && pr.1.all jsonNumOk then
          some (some (digitsToNat ds :: pr.1.map digitsToNat))
        else some none
    | _ => none
  | _ => none

/-- `re.search` for the JSON-array pattern: result at the leftmost match. -/
def arrSearch : List Char → Option (Option (List Nat))
  | [] => none
  | c :: rest =>
    match arrMatchAt (c :: rest) with
    | some r => some r
    | none => arrSearch rest

/-- A candidate record as used by the filter: only the title field enters the
cache key (`b.get('Product_Title', '')`); the other fields only feed the
prompt text, which is not modelled. -/
structure Book where
  title : List Char

/-- The book-filter cache (`filter_cache` in `deepseek1.py`): key is
(user query, tuple of candidate titles), value is the 0-based index list. -/
structure FilterCache where
  entries : List ((List Char × List (List Char)) × List Nat)

/-- `MAX_FILTER_CACHE_SIZE` (`deepseek1.py:39`). -/
def MAX_FILTER_CACHE_SIZE : Nat := 1000

/-- Dictionary lookup in the filter cache. -/
def filterCacheLookup (c : FilterCache) (k : List Char × List (List Char)) :
    Option (List Nat) :=
  (c.entries.find? (fun e => decide (e.1 = k))).map (fun e => e.2)

/-- Every cached index list is in bounds for the candidate-title tuple of its
own key (the invariant the bounds check at parse time establishes). -/
def FilterCacheValid (c : FilterCache) : Prop :=
  ∀ e ∈ c.entries, ∀ i ∈ e.2, i < e.1.2.length

/-- Embedding of `filter_books_with_deepseek` (`deepseek1.py:200-308`).  The
model call is `resp` (`none` = timeout or transport error).  Mirrors: the
truncation `books[:20]`, the cache key and lookup, the fail-open fallback
`list(range(len(books_to_process)))`, the JSON-array extraction and the
bounds check `0 < i <= len(books_to_process)` with the 1- to 0-based shift,
and the size-capped cache write. -/
def filter_books_with_deepseek (fc : FilterCache) (uq : List Char)
    (books : List Book) (resp : Option (List Char)) : List Nat × FilterCache :=
  let btp := books.take 20
  let key := (uq, btp.map (fun b => b.title))
  match filterCacheLookup fc key with
  | some idxs => (idxs, fc)
  | none =>
    match resp with
    | none => (List.range btp.length, fc)
    | some content =>
      match arrSearch content with
      | none => (List.range btp.length, fc)
      | some none => (List.range btp.length, fc)
      | some (some xs) =>
        let valid := (xs.filter (fun i => decide (0 < i) && decide (i ≤ btp.length))).map
          (fun i => i - 1)
        let fc' :=
          if fc.entries.length < MAX_FILTER_CACHE_SIZE then ⟨fc.entries ++ [(key, valid)]⟩
          else fc
        (valid, fc')

/-- The bounds-checked selection at `book_service.py:71`:
`[db_results[i] for i in selected_indices if i < len(db_results)]`. -/
def finalBooksFor {β : Type} (dbResults : List β) (idxs : List Nat) : List β :=
  idxs.filterMap (fun i => dbResults.get? i)

/-- Outcome of the filter call as seen by the orchestrator: a returned index
list, or a raised exception (caught at `book_service.py:73`). -/
inductive FilterStage where
  | ok : List Nat → FilterStage
  | raised : FilterStage

/-- Result of the orchestrator section: a degraded user-facing message, or an
assembled list of recommended records handed to response formatting. -/
inductive RecOutcome (β : Type) where
  | degraded : List Char → RecOutcome β
  | assembled : List β → RecOutcome β

/-- The "no matches" message of `book_service.py:65` (prefixed with the
loading line as in the f-string). -/
def noMatchesMsg (ll : List Char) : List Char :=
  ll ++ ("\n\nWe looked high and low but couldn’t find any matching books. Try tweaking your request?").data

/-- The "none seemed quite right" message of `book_service.py:82`. -/
def noneQuiteRightMsg (ll : List Char) : List Char :=
  ll ++ ("\n\nI fetched some titles, but none seemed quite right. Try a slightly different request?").data

/-- The result-selection section of `BookRecommendationService.recommend_books`
(`book_service.py:64-82`): empty result set → "no matches" outcome; filter
exception → first 15 raw results; then, if the selected list is empty, the
"none seemed quite right" outcome, else the assembled list. -/
def recommendPhase {β : Type} (ll : List Char) (dbResults : List β)
    (fs : FilterStage) : RecOutcome β :=
  if dbResults.isEmpty then RecOutcome.degraded (noMatchesMsg ll)
  else
    let finalBooks :=
      match fs with
      | FilterStage.ok idxs => finalBooksFor dbResults idxs
      | FilterStage.raised => dbResults.take 15
    if finalBooks.isEmpty then RecOutcome.degraded (noneQuiteRightMsg ll)
    else RecOutcome.assembled finalBooks

/-! ### General helper lemmas -/

/-- Counting an element in an `rstrip` result never exceeds the original. -/
theorem count_rstripTerm_le (t : List Char) (c : Char) :
    (rstripTerm t).count c ≤ t.count c := by
  unfold rstripTerm
  rw [List.count_reverse]
  have h1 : (t.reverse.dropWhile (fun c => (c == ';') || (c == sqc))).count c ≤
      t.reverse.count c :=
    List.Sublist.count_le ((List.dropWhile_suffix _).sublist) c
  rw [List.count_reverse] at h1
  exact h1

theorem endsSemi_concat (x : List Char) (c : Char) :
    endsSemi (x ++ [c]) = (c == ';') := by
  unfold endsSemi
  rw [List.getLast?_concat]

/-! ### C8 -/

/-- C8: for every input string, the normalizer `clean_sql` is total (it is a
Lean function) and returns a non-empty string. -/
theorem c8_normalize_nonempty (s : List Char) : clean_sql s ≠ [] := by
  unfold clean_sql
  by_cases h : endsSemi (quoteRepair (likeSub (collapseWs (extract_sql_query s))))
  · simp only [h, Bool.not_true, Bool.false_eq_true, if_false]
    intro hnil
    rw [hnil] at h
    simp [endsSemi] at h
  · simp only [h, Bool.not_false, if_true]
    simp

/-! ### C1 -/

/-- C1 counterexample: with a non-empty result set and a filter stage that
returns an empty index list, the orchestrator produces the degraded
"none seemed quite right" no-books message, not the first-15 fallback the
claim asserts. -/
theorem c1_counterexample :
    recommendPhase [] [(0 : Nat)] (FilterStage.ok []) =
      RecOutcome.degraded (noneQuiteRightMsg []) := rfl

/-- C1 (amended): with a non-empty result set, an *empty index list* from the
filter yields the degraded "none seemed quite right" outcome, while the
first-15-raw-results fallback is applied only when the filter call *raises*. -/
theorem c1_empty_filter_fallback (β : Type) (ll : List Char) (db : List β)
    (h : db ≠ []) :
    recommendPhase ll db (FilterStage.ok []) =
        RecOutcome.degraded (noneQuiteRightMsg ll) ∧
      recommendPhase ll db FilterStage.raised = RecOutcome.assembled (db.take 15) := by
  obtain ⟨a, t, rfl⟩ : ∃ a t, db = a :: t := by
    cases db with
    | nil => exact absurd rfl h
    | cons a t => exact ⟨a, t, rfl⟩
  constructor
  · simp [recommendPhase, finalBooksFor]
  · simp [recommendPhase]

/-- C1 witness: the amended theorem applied at a concrete database result. -/
theorem c1_witness :
    ([(10 : Nat), 20] ≠ []) ∧
      recommendPhase [] [(10 : Nat), 20] (FilterStage.ok []) =
        RecOutcome.degraded (noneQuiteRightMsg []) ∧
      recommendPhase [] [(10 : Nat), 20] FilterStage.raised =
        RecOutcome.assembled ([10, 20].take 15) :=
  ⟨by decide, c1_empty_filter_fallback Nat [] [10, 20] (by decide)⟩

/-! ### C5 -/

/-- C5 counterexample: on the input `abc'''` the running quote count at the
repair point is odd, yet the repaired output `abc';` still has an odd number
of single quotes — the repair does not always rebalance. -/
theorem c5_counterexample :
    (likeSub (collapseWs (extract_sql_query (("abc").data ++ [sqc, sqc, sqc])))).count sqc % 2 = 1 ∧
      clean_sql (("abc").data ++ [sqc, sqc, sqc]) = ("abc").data ++ [sqc, ';'] ∧
      (clean_sql (("abc").data ++ [sqc, sqc, sqc])).count sqc % 2 = 1 := by
  refine ⟨by decide, by decide, by decide⟩

/-- C5 (amended): if the quote count before the repair is odd, the repair
strips trailing terminator/quote characters and appends one closing quote;
the output has an even (balanced) quote count *provided* the stripped trailing
run contains an even number of quote characters (in particular none) — when it
strips an odd number of quotes the output count remains odd. -/
theorem c5_quote_repair (s : List Char)
    (hodd : (likeSub (collapseWs (extract_sql_query s))).count sqc % 2 = 1)
    (heven : ((likeSub (collapseWs (extract_sql_query s))).count sqc -
        (rstripTerm (likeSub (collapseWs (extract_sql_query s)))).count sqc) % 2 = 0) :
    (clean_sql s).count sqc % 2 = 0 := by
  set t := likeSub (collapseWs (extract_sql_query s)) with htdef
  have hr : (rstripTerm t).count sqc ≤ t.count sqc := count_rstripTerm_le t sqc
  have hq : quoteRepair t = (rstripTerm t ++ [sqc]) ++ [';'] := by
    unfold quoteRepair
    rw [if_pos (by omega), endsSemi_concat]
    have hne : (sqc == ';') = false := by decide
    rw [hne]
    simp
  have hcount : (quoteRepair t).count sqc = (rstripTerm t).count sqc + 1 := by
    rw [hq, List.count_append, List.count_append]
    have h1 : List.count sqc [sqc] = 1 := by decide
    have h2 : List.count sqc [';'] = 0 := by decide
    omega
  have hends : endsSemi (quoteRepair t) = true := by
    rw [hq, endsSemi_concat]
    decide
  unfold clean_sql
  rw [← htdef, hends]
  simp only [Bool.not_true, Bool.false_eq_true, if_false]
  rw [hcount]
  omega

/-- C5 witness: the amended theorem applied at the concrete input `'abc`,
whose trailing run strips no quote; the repaired output is balanced. -/
theorem c5_witness :
    ((likeSub (collapseWs (extract_sql_query ([sqc] ++ ("abc").data)))).count sqc % 2 = 1) ∧
      (((likeSub (collapseWs (extract_sql_query ([sqc] ++ ("abc").data)))).count sqc -
        (rstripTerm (likeSub (collapseWs (extract_sql_query ([sqc] ++ ("abc").data))))).count sqc) % 2 = 0) ∧
      (clean_sql ([sqc] ++ ("abc").data)).count sqc % 2 = 0 :=
  ⟨by decide, by decide, c5_quote_repair ([sqc] ++ ("abc").data) (by decide) (by decide)⟩

/-! ### LIKE-rewrite lemmas (C2) -/

theorem segScan_cons (c : Char) (rest : List Char) :
    segScan (c :: rest) =
      if c == sqc then none
      else if isPctQuote rest then some ([c], rest.drop 2)
      else
        match segScan rest with
        | some (p, r) => some (c :: p, r)
        | none => none := rfl

theorem takeWhile_append_all (p : Char → Bool) (a : List Char) (h : Char)
    (t : List Char) (ha : ∀ c ∈ a, p c = true) (hh : p h = false) :
    (a ++ h :: t).takeWhile p = a ∧ (a ++ h :: t).dropWhile p = h :: t := by
  induction a with
  | nil => simp [List.takeWhile_cons, List.dropWhile_cons, hh]
  | cons x xs ih =>
    have hx : p x = true := ha x (by simp)
    have ihh := ih (fun c hc => ha c (by simp [hc]))
    simp [List.takeWhile_cons, List.dropWhile_cons, hx, ihh.1, ihh.2]

theorem segScan_closes (p post : List Char) (hne : p ≠ []) (hq : sqc ∉ p) :
    segScan (p ++ '%' :: sqc :: post) = some (p, post) := by
  induction p with
  | nil => exact absurd rfl hne
  | cons a as ih =>
    have ha : (a == sqc) = false := by
      have h1 : a ≠ sqc := fun h => hq (by simp [h])
      exact beq_eq_false_iff_ne.mpr h1
    cases as with
    | nil =>
      show segScan (a :: '%' :: sqc :: post) = some ([a], post)
      rw [segScan_cons, ha]
      have hpq : isPctQuote ('%' :: sqc :: post) = true := by simp [isPctQuote]
      simp [hpq]
    | cons b bs =>
      have hqs : sqc ∉ (b :: bs) := fun h => hq (List.mem_cons_of_mem a h)
      have ihr := ih (List.cons_ne_nil b bs) hqs
      have hpq : isPctQuote ((b :: bs) ++ '%' :: sqc :: post) = false := by
        cases bs with
        | nil =>
          by_cases hb : b = '%'
          · subst hb
            simp [isPctQuote]
            decide
          · simp [isPctQuote, beq_eq_false_iff_ne.mpr hb]
        | cons d ds =>
          by_cases hb : b = '%'
          · have hd : d ≠ sqc := fun h => hqs (by simp [h])
            subst hb
            simp [isPctQuote, beq_eq_false_iff_ne.mpr hd]
          · simp [isPctQuote, beq_eq_false_iff_ne.mpr hb]
      show segScan (a :: ((b :: bs) ++ '%' :: sqc :: post)) = some (a :: b :: bs, post)
      rw [segScan_cons, ha, hpq, ihr]
      simp

theorem segScan_length {s p r : List Char} (h : segScan s = some (p, r)) :
    r.length < s.length := by
  induction s generalizing p r with
  | nil => simp [segScan] at h
  | cons c rest ih =>
    rw [segScan_cons] at h
    by_cases h1 : (c == sqc) = true
    · rw [if_pos h1] at h
      exact absurd h (by simp)
    · rw [if_neg h1] at h
      by_cases h2 : isPctQuote rest = true
      · rw [if_pos h2] at h
        have hr : r = rest.drop 2 := by
          have := (Option.some.injEq _ _).mp h
          exact (Prod.mk.injEq _ _ _ _).mp this |>.2.symm
        subst hr
        have hlen : (rest.drop 2).length ≤ rest.length := by
          rw [List.length_drop]
          omega
        simp only [List.length_cons]
        omega
      · rw [if_neg h2] at h
        cases hseg : segScan rest with
        | none => rw [hseg] at h; exact absurd h (by simp)
        | some pr =>
          obtain ⟨p', r'⟩ := pr
          rw [hseg] at h
          have hr : r = r' := by
            have := (Option.some.injEq _ _).mp h
            exact (Prod.mk.injEq _ _ _ _).mp this |>.2.symm
          subst hr
          have := ih hseg
          simp only [List.length_cons]
          omega

theorem matchLikeAt_clause (col p post : List Char) (hc : col ≠ [])
    (hw : ∀ c ∈ col, isWordChar c = true) (hp : p ≠ []) (hq : sqc ∉ p) :
    matchLikeAt (col ++ ' ' :: 'L' :: 'I' :: 'K' :: 'E' :: ' ' :: sqc :: '%' ::
        (p ++ '%' :: sqc :: post)) = some (col, p, post) := by
  have hsp : isWordChar ' ' = false := by decide
  obtain ⟨htake, hdrop⟩ :=
    takeWhile_append_all isWordChar col ' '
      ('L' :: 'I' :: 'K' :: 'E' :: ' ' :: sqc :: '%' :: (p ++ '%' :: sqc :: post)) hw hsp
  have hcolE : col.isEmpty = false := by
    cases col with
    | nil => exact absurd rfl hc
    | cons a as => rfl
  have h1 : pySpace ' ' = true := by decide
  have h2 : pySpace 'L' = false := by decide
  have h3 : pySpace sqc = false := by decide
  simp only [matchLikeAt, htake, hdrop, hcolE, Bool.false_eq_true, if_false,
    List.takeWhile_cons, List.dropWhile_cons, h1, h2, h3, if_true, if_false]
  simp only [List.isEmpty_cons, Bool.false_eq_true, if_false]
  rw [segScan_closes p post hp hq]
  simp

theorem matchLikeAt_length {s col p r : List Char}
    (h : matchLikeAt s = some (col, p, r)) : r.length < s.length := by
  simp only [matchLikeAt] at h
  split at h
  · exact absurd h (by simp)
  · split at h
    · exact absurd h (by simp)
    · split at h
      · rename_i s3 heq
        split at h
        · exact absurd h (by simp)
        · split at h
          · rename_i a b s5 heq2
            split at h
            · split at h
              · rename_i p' r' heq3
                have h5 : r'.length < s5.length := segScan_length heq3
                have hr : r = r' := by
                  have := (Option.some.injEq _ _).mp h
                  rw [Prod.mk.injEq] at this
                  have := this.2
                  rw [Prod.mk.injEq] at this
                  exact this.2.symm
                subst hr
                have hc1 : (s.dropWhile isWordChar).length ≤ s.length :=
                  (List.dropWhile_suffix _).length_le
                have hc2 : ((s.dropWhile isWordChar).dropWhile pySpace).length ≤
                    (s.dropWhile isWordChar).length :=
                  (List.dropWhile_suffix _).length_le
                have hc3 : s3.length + 4 = ((s.dropWhile isWordChar).dropWhile pySpace).length := by
                  rw [heq]
                  simp
                have hc4 : (s3.dropWhile pySpace).length ≤ s3.length :=
                  (List.dropWhile_suffix _).length_le
                have hc5 : s5.length + 2 = (s3.dropWhile pySpace).length := by
                  rw [heq2]
                  simp
                omega
              · exact absurd h (by simp)
            · exact absurd h (by simp)
          · exact absurd h (by simp)
      · exact absurd h (by simp)

theorem likeSubAux_nil (f : Nat) : likeSubAux f [] = [] := by
  cases f <;> rfl

theorem likeSubAux_cons (f : Nat) (c : Char) (rest : List Char) :
    likeSubAux (f + 1) (c :: rest) =
      match matchLikeAt (c :: rest) with
      | some (col, p, r) => fix_like_pattern col p ++ likeSubAux f r
      | none => c :: likeSubAux f rest := rfl

theorem likeSubAux_congr : ∀ f g : Nat, ∀ s : List Char,
    s.length ≤ f → s.length ≤ g → likeSubAux f s = likeSubAux g s := by
  intro f
  induction f with
  | zero =>
    intro g s hf _
    have hs : s = [] := List.length_eq_zero.mp (Nat.le_zero.mp hf)
    subst hs
    rw [likeSubAux_nil, likeSubAux_nil]
  | succ f ih =>
    intro g s hf hg
    cases s with
    | nil => rw [likeSubAux_nil, likeSubAux_nil]
    | cons c rest =>
      cases g with
      | zero => simp at hg
      | succ g =>
        rw [likeSubAux_cons, likeSubAux_cons]
        cases hm : matchLikeAt (c :: rest) with
        | some t =>
          obtain ⟨col, pp, r⟩ := t
          have hlt := matchLikeAt_length hm
          simp only [List.length_cons] at hf hg hlt
          simp [ih g r (by omega) (by omega)]
        | none =>
          simp only [List.length_cons] at hf hg
          simp [ih g rest (by omega) (by omega)]

theorem likeSubAux_walk : ∀ (pre u : List Char) (f : Nat),
    (∀ i < pre.length, matchLikeAt (List.drop i (pre ++ u)) = none) →
    pre.length + u.length ≤ f →
    likeSubAux f (pre ++ u) = pre ++ likeSubAux (f - pre.length) u := by
  intro pre
  induction pre with
  | nil =>
    intro u f _ _
    simp
  | cons c pre' ih =>
    intro u f h hf
    cases f with
    | zero => simp at hf
    | succ f =>
      have h0 : matchLikeAt (c :: (pre' ++ u)) = none := by
        have := h 0 (by simp)
        simpa using this
      show likeSubAux (f + 1) (c :: (pre' ++ u)) =
        (c :: pre') ++ likeSubAux (f + 1 - (c :: pre').length) u
      rw [likeSubAux_cons, h0]
      have hrec := ih u f
        (fun i hi => by
          have := h (i + 1) (by simp only [List.length_cons]; omega)
          simpa [List.drop_succ_cons] using this)
        (by simp only [List.length_cons, List.length_append] at hf ⊢; omega)
      rw [hrec]
      simp only [List.length_cons, Nat.succ_sub_succ, List.cons_append]

theorem likeSubAux_step {f : Nat} {s col p r : List Char} (hf : s.length ≤ f)
    (hm : matchLikeAt s = some (col, p, r)) :
    likeSubAux f s = fix_like_pattern col p ++ likeSubAux (f - 1) r := by
  cases s with
  | nil =>
    rw [show matchLikeAt [] = none from rfl] at hm
    exact absurd hm (by simp)
  | cons c rest =>
    cases f with
    | zero => simp at hf
    | succ f =>
      rw [likeSubAux_cons, hm]
      simp

theorem splitPct_no_pct (p : List Char) (h : '%' ∉ p) : splitPct p = [p] := by
  induction p with
  | nil => rfl
  | cons c rest ih =>
    have hc : (c == '%') = false :=
      beq_eq_false_iff_ne.mpr (fun hh => h (by simp [hh]))
    have ihr := ih (fun hh => h (List.mem_cons_of_mem c hh))
    simp [splitPct, hc, ihr]

theorem likeClause_append (col p post : List Char) :
    likeClause col p ++ post =
      col ++ ' ' :: 'L' :: 'I' :: 'K' :: 'E' :: ' ' :: sqc :: '%' ::
        (p ++ '%' :: sqc :: post) := by
  unfold likeClause
  simp

/-! ### C2 -/

/-- C2: wherever the rewriting pass of `clean_sql` finds a clause
`<column> LIKE '%<pattern>%'` (the hypothesis states that the leftmost match of
the scan is exactly this clause), the clause is replaced by
`fix_like_pattern`'s output and scanning resumes after the clause; when the
pattern splits into two or more non-empty segments the replacement is the
parenthesized conjunction of one `<column> LIKE '%<segment>%'` condition per
non-empty segment, and when the pattern has no internal `%` separator the
clause is left unchanged. -/
theorem c2_like_rewrite (pre col p post : List Char) (hc : col ≠ [])
    (hw : ∀ c ∈ col, isWordChar c = true) (hp : p ≠ []) (hq : sqc ∉ p)
    (hpre : ∀ i < pre.length,
      matchLikeAt (List.drop i (pre ++ likeClause col p ++ post)) = none) :
    likeSub (pre ++ likeClause col p ++ post) =
        pre ++ fix_like_pattern col p ++ likeSub post ∧
      (2 ≤ ((splitPct p).filter (fun t => !t.isEmpty)).length →
        fix_like_pattern col p =
          '(' :: (List.intercalate ((" AND ").data)
            (((splitPct p).filter (fun t => !t.isEmpty)).map
              (fun t => likeClause col t))) ++ [')']) ∧
      ('%' ∉ p → fix_like_pattern col p = likeClause col p) := by
  refine ⟨?_, ?_, ?_⟩
  · have hm : matchLikeAt (likeClause col p ++ post) = some (col, p, post) := by
      rw [likeClause_append]
      exact matchLikeAt_clause col p post hc hw hp hq
    have hassoc : pre ++ likeClause col p ++ post = pre ++ (likeClause col p ++ post) :=
      List.append_assoc pre _ post
    have hcl : 1 ≤ (likeClause col p).length := by
      simp [likeClause]
      omega
    unfold likeSub
    rw [hassoc]
    rw [likeSubAux_walk pre (likeClause col p ++ post) _
      (by
        intro i hi
        have := hpre i hi
        rw [hassoc] at this
        exact this)
      (by simp [List.length_append])]
    rw [likeSubAux_step (f := (pre ++ (likeClause col p ++ post)).length - pre.length)
      (by simp [List.length_append]) hm]
    rw [likeSubAux_congr _ post.length post
      (by simp only [List.length_append]; omega) (le_refl _), List.append_assoc]
  · intro hterms
    have hpct : '%' ∈ p := by
      by_contra hnot
      rw [splitPct_no_pct p hnot] at hterms
      have hne : (!p.isEmpty) = true := by
        cases p with
        | nil => exact absurd rfl hp
        | cons a as => rfl
      simp [hne] at hterms
    unfold fix_like_pattern
    rw [if_pos hpct, if_pos (by omega)]
  · intro hnot
    unfold fix_like_pattern
    rw [if_neg hnot]

/-- C2 witness: the rewrite theorem applied at the concrete clause
`Product_Title LIKE '%harry%potter%'` preceded by `WHERE `. -/
theorem c2_witness :
    likeSub (("WHERE ").data ++
        likeClause (("Product_Title").data) (("harry%potter").data) ++ ("").data) =
      ("WHERE ").data ++
        fix_like_pattern (("Product_Title").data) (("harry%potter").data) ++
        likeSub (("").data) ∧
    fix_like_pattern (("Product_Title").data) (("harry%potter").data) =
      '(' :: (List.intercalate ((" AND ").data)
        (((splitPct (("harry%potter").data)).filter (fun t => !t.isEmpty)).map
          (fun t => likeClause (("Product_Title").data) t))) ++ [')'] := by
  have h := c2_like_rewrite (("WHERE ").data) (("Product_Title").data)
    (("harry%potter").data) (("").data)
    (by decide) (by decide) (by decide) (by decide) (by decide)
  exact ⟨h.1, h.2.1 (by decide)⟩

/-! ### Validator lemmas (C7, C3, C4) -/

theorem startsWithCI_append (pat a x : List Char) (h : startsWithCI pat a = true) :
    startsWithCI pat (a ++ x) = true := by
  induction pat generalizing a with
  | nil => rfl
  | cons q qs ih =>
    cases a with
    | nil => simp [startsWithCI] at h
    | cons c cs =>
      simp only [startsWithCI, Bool.and_eq_true] at h
      simp only [List.cons_append, startsWithCI, Bool.and_eq_true]
      exact ⟨h.1, ih cs h.2⟩

theorem scan_append_stop (p : Char → Bool) (a x : List Char) (h : a.dropWhile p ≠ []) :
    (a ++ x).takeWhile p = a.takeWhile p ∧ (a ++ x).dropWhile p = a.dropWhile p ++ x := by
  induction a with
  | nil => exact absurd rfl h
  | cons c cs ih =>
    by_cases hc : p c = true
    · have hih := ih (by
        rw [List.dropWhile_cons_of_pos hc] at h
        exact h)
      rw [List.cons_append, List.takeWhile_cons_of_pos hc, List.takeWhile_cons_of_pos hc,
        List.dropWhile_cons_of_pos hc, List.dropWhile_cons_of_pos hc]
      exact ⟨by rw [hih.1], hih.2⟩
    · rw [List.cons_append, List.takeWhile_cons_of_neg hc, List.takeWhile_cons_of_neg hc,
        List.dropWhile_cons_of_neg hc, List.dropWhile_cons_of_neg hc]
      exact ⟨rfl, rfl⟩

theorem suffix_dropWhile_append (p : Char → Bool) (mid : List Char) (h0 : Char)
    (t : List Char) (hh : p h0 = false) :
    (h0 :: t) <:+ (mid ++ h0 :: t).dropWhile p := by
  induction mid with
  | nil =>
    rw [List.nil_append, List.dropWhile_cons_of_neg (by simp [hh])]
  | cons c cs ih =>
    by_cases hc : p c = true
    · rw [List.cons_append, List.dropWhile_cons_of_pos hc]
      exact ih
    · rw [List.cons_append, List.dropWhile_cons_of_neg hc]
      exact ⟨c :: cs, rfl⟩

theorem scanFrom_of_suffix {y s : List Char} (hy : y <:+ s) (h : checkFrom y = true) :
    scanFrom s = true := by
  induction s with
  | nil =>
    have hnil : y = [] := List.suffix_nil.mp hy
    subst hnil
    simp [checkFrom, startsWithCI] at h
  | cons c cs ih =>
    rcases List.suffix_cons_iff.mp hy with h1 | h2
    · subst h1
      unfold scanFrom
      rw [h, Bool.true_or]
    · unfold scanFrom
      rw [ih h2, Bool.or_true]

theorem digit_not_pySpace (c : Char) (h : c.isDigit = true) : pySpace c = false := by
  by_contra hsp
  rw [Bool.not_eq_false] at hsp
  unfold pySpace at hsp
  simp only [Bool.or_eq_true, beq_iff_eq] at hsp
  rcases hsp with ((((h1 | h1) | h1) | h1) | h1) | h1 <;> subst h1 <;> simp [Char.isDigit] at h

theorem checkFrom_concrete (tbl trail : List Char)
    (htbl : tbl = tblProductSearch ∨ tbl = tblTopBooks) :
    checkFrom (("FROM ").data ++ (tbl ++ trail)) = true := by
  unfold checkFrom
  have h1 : startsWithCI (("from").data) ((("FROM ").data ++ (tbl ++ trail))) = true :=
    startsWithCI_append _ _ _ (by decide)
  rw [h1, Bool.true_and]
  have hdrop : ((("FROM ").data ++ (tbl ++ trail)).drop 4) = ' ' :: (tbl ++ trail) := rfl
  rw [hdrop]
  rcases htbl with h | h <;> subst h
  · have hx : tblProductSearch ++ trail =
        'T' :: (("able_ProductSearchNewSearch").data ++ trail) := rfl
    rw [hx, List.takeWhile_cons_of_pos (show pySpace ' ' = true from by decide),
      List.dropWhile_cons_of_pos (show pySpace ' ' = true from by decide),
      List.dropWhile_cons_of_neg (show ¬pySpace 'T' = true from by decide), ← hx]
    have h2 : startsWithCI tblProductSearch (tblProductSearch ++ trail) = true :=
      startsWithCI_append _ _ _ (by decide)
    rw [h2]
    simp
  · have hx : tblTopBooks ++ trail = 'T' :: (("able_TopBooksData").data ++ trail) := rfl
    rw [hx, List.takeWhile_cons_of_pos (show pySpace ' ' = true from by decide),
      List.dropWhile_cons_of_pos (show pySpace ' ' = true from by decide),
      List.dropWhile_cons_of_neg (show ¬pySpace 'T' = true from by decide), ← hx]
    have h2 : startsWithCI tblTopBooks (tblTopBooks ++ trail) = true :=
      startsWithCI_append _ _ _ (by decide)
    rw [h2]
    simp

theorem validateSql_hasTopNum {s : List Char} (h : validateSql s = true) :
    hasTopNum s = true := by
  unfold validateSql at h
  simp only [Bool.and_eq_true] at h
  obtain ⟨h1, h2, h3, h4, h5, h6, h7⟩ := h
  have hsuf : ((s.drop 6).dropWhile pySpace) <:+ s :=
    (List.dropWhile_suffix pySpace).trans (List.drop_suffix 6 s)
  unfold hasTopNum
  rw [List.any_eq_true]
  refine ⟨(s.drop 6).dropWhile pySpace, (List.mem_tails _ _).mpr hsuf, ?_⟩
  unfold topAt
  simp only [Bool.and_eq_true]
  exact ⟨h3, h4, h5⟩

theorem validateSql_leading_space (s : List Char) : validateSql (' ' :: s) = false := by
  unfold validateSql
  have h : startsWithCI (("select").data) (' ' :: s) = false := by
    show (('s'.toLower == ' '.toLower) && startsWithCI (("elect").data) s) = false
    rw [show ('s'.toLower == ' '.toLower) = false from by decide, Bool.false_and]
  rw [h, Bool.false_and]

theorem validateSql_shaped (ds mid tbl trail : List Char) (hds : ds ≠ [])
    (hdig : ∀ c ∈ ds, Char.isDigit c = true)
    (htbl : tbl = tblProductSearch ∨ tbl = tblTopBooks) :
    validateSql (("SELECT TOP ").data ++
      (ds ++ (' ' :: (mid ++ (("FROM ").data ++ (tbl ++ trail)))))) = true := by
  obtain ⟨d0, ds', rfl⟩ : ∃ d0 ds', ds = d0 :: ds' := by
    cases ds with
    | nil => exact absurd rfl hds
    | cons a b => exact ⟨a, b, rfl⟩
  have hd0 : Char.isDigit d0 = true := hdig d0 (by simp)
  have hd0s : pySpace d0 = false := digit_not_pySpace d0 hd0
  have hdall : ∀ c ∈ d0 :: ds', Char.isDigit c = true := hdig
  unfold validateSql
  simp only [Bool.and_eq_true]
  refine ⟨?_, ?_, ?_, ?_, ?_, ?_, ?_⟩
  · rfl
  · rfl
  · rfl
  · show (!((' ' :: ((d0 :: ds') ++ (' ' ::
        (mid ++ (("FROM ").data ++ (tbl ++ trail)))))).takeWhile pySpace).isEmpty) = true
    rw [List.takeWhile_cons_of_pos (show pySpace ' ' = true from by decide)]
    simp
  · show (!(((' ' :: ((d0 :: ds') ++ (' ' ::
        (mid ++ (("FROM ").data ++ (tbl ++ trail)))))).dropWhile pySpace).takeWhile
          Char.isDigit).isEmpty) = true
    rw [List.dropWhile_cons_of_pos (show pySpace ' ' = true from by decide)]
    rw [List.cons_append,
      List.dropWhile_cons_of_neg (by simp [hd0s]),
      List.takeWhile_cons_of_pos hd0]
    simp
  · show (!((((' ' :: ((d0 :: ds') ++ (' ' ::
        (mid ++ (("FROM ").data ++ (tbl ++ trail)))))).dropWhile pySpace).dropWhile
          Char.isDigit).takeWhile pySpace).isEmpty) = true
    rw [List.dropWhile_cons_of_pos (show pySpace ' ' = true from by decide)]
    have hstop := takeWhile_append_all Char.isDigit (d0 :: ds') ' '
      (mid ++ (("FROM ").data ++ (tbl ++ trail))) hdall (by decide)
    have hdw : (((d0 :: ds') ++ (' ' ::
        (mid ++ (("FROM ").data ++ (tbl ++ trail)))))).dropWhile pySpace =
        ((d0 :: ds') ++ (' ' :: (mid ++ (("FROM ").data ++ (tbl ++ trail))))) := by
      rw [List.cons_append, List.dropWhile_cons_of_neg (by simp [hd0s])]
    rw [hdw, hstop.2]
    rw [List.takeWhile_cons_of_pos (show pySpace ' ' = true from by decide)]
    simp
  · show scanFrom (((((' ' :: ((d0 :: ds') ++ (' ' ::
        (mid ++ (("FROM ").data ++ (tbl ++ trail)))))).dropWhile pySpace).dropWhile
          Char.isDigit).dropWhile pySpace)) = true
    rw [List.dropWhile_cons_of_pos (show pySpace ' ' = true from by decide)]
    have hstop := takeWhile_append_all Char.isDigit (d0 :: ds') ' '
      (mid ++ (("FROM ").data ++ (tbl ++ trail))) hdall (by decide)
    have hdw : (((d0 :: ds') ++ (' ' ::
        (mid ++ (("FROM ").data ++ (tbl ++ trail)))))).dropWhile pySpace =
        ((d0 :: ds') ++ (' ' :: (mid ++ (("FROM ").data ++ (tbl ++ trail))))) := by
      rw [List.cons_append, List.dropWhile_cons_of_neg (by simp [hd0s])]
    rw [hdw, hstop.2]
    rw [List.dropWhile_cons_of_pos (show pySpace ' ' = true from by decide)]
    exact scanFrom_of_suffix
      (suffix_dropWhile_append pySpace mid 'F' ((("ROM ").data ++ (tbl ++ trail))) (by decide))
      (checkFrom_concrete tbl trail htbl)

theorem validateSql_fallback (w ext : List Char) :
    validateSql (fallbackBase w ++ ext) = true := by
  have h := validateSql_shaped (("15").data)
    (("Product_Title, AuthorName1, Category_Name, Product_SalePrice, Product_TitleURl, ISBN13 ").data)
    tblProductSearch
    ((" WHERE Product_Title LIKE ").data ++ ([sqc, '%'] ++ (w ++ (['%', sqc] ++ ext))))
    (by decide) (by decide) (Or.inl rfl)
  have heq : fallbackBase w ++ ext =
      ("SELECT TOP ").data ++ ((("15").data) ++ (' ' ::
        ((("Product_Title, AuthorName1, Category_Name, Product_SalePrice, Product_TitleURl, ISBN13 ").data) ++
          (("FROM ").data ++ (tblProductSearch ++
            ((" WHERE Product_Title LIKE ").data ++ ([sqc, '%'] ++ (w ++ (['%', sqc] ++ ext))))))))) := by
    simp only [fallbackBase, tblProductSearch, List.append_assoc]
    rfl
  rw [heq]
  exact h

/-! ### C7 -/

/-- C7 counterexample: a query text that carries the row-limit modifier and
draws from a known table is rejected when it merely has *leading* whitespace,
because the shape check is anchored at the start of the string; the same text
without the leading space is accepted.  This refutes the claim's "regardless
of surrounding (leading or trailing) whitespace". -/
theorem c7_counterexample :
    validateSql ((" SELECT TOP 15 x FROM Table_TopBooksData").data) = false ∧
      hasTopNum ((" SELECT TOP 15 x FROM Table_TopBooksData").data) = true ∧
      validateSql (("SELECT TOP 15 x FROM Table_TopBooksData").data) = true := by
  refine ⟨by decide, by decide, by decide⟩

/-- C7 (amended): the shape validation rejects any query text without a
`TOP <digits>` row-limit modifier, accepts any text of the required
`SELECT TOP <digits> ... FROM <known table>` shape regardless of *trailing*
content (in particular trailing whitespace), but rejects any text with
leading whitespace, since the match is anchored at the start (the synthesizer
always strips the candidate text before validating it, so a leading-whitespace
text never reaches the check in the pipeline). -/
theorem c7_validator (s ds mid tbl trail : List Char) (hds : ds ≠ [])
    (hdig : ∀ c ∈ ds, Char.isDigit c = true)
    (htbl : tbl = tblProductSearch ∨ tbl = tblTopBooks) :
    (hasTopNum s = false → validateSql s = false) ∧
      validateSql (("SELECT TOP ").data ++
        (ds ++ (' ' :: (mid ++ (("FROM ").data ++ (tbl ++ trail)))))) = true ∧
      validateSql (' ' :: s) = false := by
  refine ⟨?_, validateSql_shaped ds mid tbl trail hds hdig htbl,
    validateSql_leading_space s⟩
  intro hno
  by_contra hval
  rw [Bool.not_eq_false] at hval
  rw [validateSql_hasTopNum hval] at hno
  exact Bool.true_eq_false.mp hno

/-- C7 witness: the amended theorem applied at concrete inputs, including a
query with trailing whitespace that is accepted. -/
theorem c7_witness :
    (hasTopNum (("SELECT x FROM Table_TopBooksData").data) = false →
        validateSql (("SELECT x FROM Table_TopBooksData").data) = false) ∧
      validateSql (("SELECT TOP ").data ++ ((("15").data) ++ (' ' ::
        ((("x ").data) ++ (("FROM ").data ++ (tblTopBooks ++ (("   ").data))))))) = true ∧
      validateSql (' ' :: (("SELECT x FROM Table_TopBooksData").data)) = false :=
  c7_validator (("SELECT x FROM Table_TopBooksData").data) (("15").data) (("x ").data)
    tblTopBooks (("   ").data) (by decide) (by decide) (Or.inr rfl)

/-! ### C3 -/

/-- Reduction of `get_sql_from_deepseek` on a cache miss with a successful
model call. -/
theorem getSql_miss_eq (cache : SqlCache) (uq content : List Char) (tokens : Nat)
    (hmiss : sqlCacheLookup cache uq = none) :
    get_sql_from_deepseek cache uq (some (content, tokens)) =
      match (if validateSql (parseModelContent content).2 = true then
          some ((parseModelContent content).2)
        else
          match pySplit uq with
          | [] => none
          | w :: rest =>
            some (fallbackBase w ++ (if rest.isEmpty then [] else fallbackOr w))) with
      | none => none
      | some sqlF =>
        some ((sqlF, (parseModelContent content).1, tokens),
          if cache.entries.length < MAX_CACHE_SIZE then
            ⟨cache.entries ++ [(uq, (sqlF, (parseModelContent content).1))]⟩
          else cache) := by
  unfold get_sql_from_deepseek
  rw [hmiss]

/-- C3 counterexample: on a whitespace-only request whose model text fails the
shape validation, the synthesizer raises (an `IndexError` from
`user_query.split()[0]`) instead of returning a valid fallback query. -/
theorem c3_counterexample :
    get_sql_from_deepseek ⟨[]⟩ (("   ").data) (some ((("garbage").data), 5)) = none := rfl

/-- C3 (amended): whenever the model call succeeds on a cache miss *and the
request contains at least one whitespace-delimited token*, the synthesizer
returns without raising and the query text it returns passes the shape
validation (either the validated model output or the deterministic fallback);
for a token-less request whose model text fails validation it raises instead. -/
theorem c3_synth_valid (cache : SqlCache) (uq content : List Char) (tokens : Nat)
    (hmiss : sqlCacheLookup cache uq = none) (htok : pySplit uq ≠ []) :
    ∃ sql ll cache2,
      get_sql_from_deepseek cache uq (some (content, tokens)) =
          some ((sql, ll, tokens), cache2) ∧
        validateSql sql = true := by
  rw [getSql_miss_eq cache uq content tokens hmiss]
  by_cases hval : validateSql (parseModelContent content).2 = true
  · rw [if_pos hval]
    exact ⟨_, _, _, rfl, hval⟩
  · rw [if_neg hval]
    cases hsp : pySplit uq with
    | nil => exact absurd hsp htok
    | cons w rest =>
      refine ⟨_, _, _, rfl, ?_⟩
      cases hrest : rest.isEmpty
      · simp only [Bool.false_eq_true, if_false]
        exact validateSql_fallback w (fallbackOr w)
      · rw [if_pos rfl, List.append_nil]
        have := validateSql_fallback w []
        rwa [List.append_nil] at this

/-- C3 witness: the amended theorem applied at a concrete request with one
token and a model text that fails validation. -/
theorem c3_witness :
    (sqlCacheLookup ⟨[]⟩ (("meditation").data) = none) ∧
      (pySplit (("meditation").data) ≠ []) ∧
      ∃ sql ll cache2,
        get_sql_from_deepseek ⟨[]⟩ (("meditation").data) (some ((("not sql").data), 3)) =
            some ((sql, ll, 3), cache2) ∧
          validateSql sql = true :=
  ⟨rfl, by decide,
    c3_synth_valid ⟨[]⟩ (("meditation").data) (("not sql").data) 3 rfl (by decide)⟩

/-! ### C4 -/

/-- C4 counterexample: for the single-token request `meditation` with invalid
model text, the fallback query searches the title field only — it contains no
`OR` and no author clause, refuting "title, author, and category fields
combined via OR" for every request. -/
theorem c4_counterexample :
    get_sql_from_deepseek ⟨[]⟩ (("meditation").data) (some ((("not sql").data), 3)) =
        some ((fallbackBase (("meditation").data), none, 3),
          ⟨[((("meditation").data), (fallbackBase (("meditation").data), none))]⟩) ∧
      containsSub (("AuthorName1 LIKE").data) (fallbackBase (("meditation").data)) = false ∧
      containsSub ((" OR ").data) (fallbackBase (("meditation").data)) = false := by
  refine ⟨rfl, by decide, by decide⟩

/-- C4 (amended): on a cache miss, when the model text fails shape validation
the fallback query is the row-limited (`TOP 15`) search of the primary table
matching the first whitespace-delimited token `w` against the title field,
extended with the author and category `OR` clauses exactly when the request
has two or more tokens; with a single token the fallback matches the title
field only. -/
theorem c4_fallback_shape (cache : SqlCache) (uq content : List Char) (tokens : Nat)
    (w : List Char) (rest : List (List Char))
    (hmiss : sqlCacheLookup cache uq = none)
    (hval : validateSql (parseModelContent content).2 = false)
    (hsplit : pySplit uq = w :: rest) :
    ∃ cache2,
      get_sql_from_deepseek cache uq (some (content, tokens)) =
          some ((fallbackBase w ++ (if rest.isEmpty then [] else fallbackOr w),
            (parseModelContent content).1, tokens), cache2) ∧
        (rest = [] →
          fallbackBase w ++ (if rest.isEmpty then [] else fallbackOr w) = fallbackBase w) ∧
        (rest ≠ [] →
          fallbackBase w ++ (if rest.isEmpty then [] else fallbackOr w) =
            fallbackBase w ++ fallbackOr w) := by
  rw [getSql_miss_eq cache uq content tokens hmiss]
  rw [if_neg (by rw [hval]; exact Bool.false_ne_true), hsplit]
  refine ⟨_, rfl, ?_, ?_⟩
  · intro hrest
    subst hrest
    simp
  · intro hrest
    have hre : rest.isEmpty = false := by
      cases rest with
      | nil => exact absurd rfl hrest
      | cons a b => rfl
    rw [hre]
    simp only [Bool.false_eq_true, if_false]

/-- C4 witness: the amended theorem applied at the two-token request
`harry potter` with invalid model text. -/
theorem c4_witness :
    (sqlCacheLookup ⟨[]⟩ (("harry potter").data) = none) ∧
      (validateSql (parseModelContent (("junk").data)).2 = false) ∧
      (pySplit (("harry potter").data) = (("harry").data) :: [(("potter").data)]) ∧
      ∃ cache2,
        get_sql_from_deepseek ⟨[]⟩ (("harry potter").data) (some ((("junk").data), 2)) =
            some ((fallbackBase (("harry").data) ++
              (if [(("potter").data)].isEmpty then [] else fallbackOr (("harry").data)),
              (parseModelContent (("junk").data)).1, 2), cache2) ∧
          ([(("potter").data)] = [] →
            fallbackBase (("harry").data) ++
              (if [(("potter").data)].isEmpty then [] else fallbackOr (("harry").data)) =
              fallbackBase (("harry").data)) ∧
          ([(("potter").data)] ≠ [] →
            fallbackBase (("harry").data) ++
              (if [(("potter").data)].isEmpty then [] else fallbackOr (("harry").data)) =
              fallbackBase (("harry").data) ++ fallbackOr (("harry").data)) :=
  ⟨rfl, by decide, by decide,
    c4_fallback_shape ⟨[]⟩ (("harry potter").data) (("junk").data) 2
      (("harry").data) [(("potter").data)] rfl (by decide) (by decide)⟩

/-! ### C9 -/

/-- C9: if a first synthesizer call returns and the cache held fewer entries
than its capacity at the time of its cache write, then a second call with the
identical request returns the identical query text (and loading line) with a
reported cost of 0 and an unchanged cache, *whatever* the model service would
do on the second call (`api2` is universally quantified, so the model is not
consulted). -/
theorem c9_cache_roundtrip (cache : SqlCache) (uq : List Char)
    (api : Option (List Char × Nat)) (r : List Char × Option (List Char) × Nat)
    (cache2 : SqlCache)
    (hfirst : get_sql_from_deepseek cache uq api = some (r, cache2))
    (hcap : cache.entries.length < MAX_CACHE_SIZE) :
    ∀ api2, get_sql_from_deepseek cache2 uq api2 = some ((r.1, r.2.1, 0), cache2) := by
  intro api2
  cases hlook : sqlCacheLookup cache uq with
  | some v =>
    obtain ⟨sql, ll⟩ := v
    have h1 : get_sql_from_deepseek cache uq api = some ((sql, ll, 0), cache) := by
      unfold get_sql_from_deepseek
      rw [hlook]
    rw [h1] at hfirst
    have heq := Option.some_inj.mp hfirst
    rw [Prod.mk.injEq] at heq
    obtain ⟨hr, hc⟩ := heq
    subst hc
    subst hr
    unfold get_sql_from_deepseek
    rw [hlook]
  | none =>
    cases api with
    | none =>
      have hnone : get_sql_from_deepseek cache uq none = none := by
        unfold get_sql_from_deepseek
        rw [hlook]
      rw [hnone] at hfirst
      exact absurd hfirst (by simp)
    | some ct =>
      obtain ⟨content, tokens⟩ := ct
      rw [getSql_miss_eq cache uq content tokens hlook] at hfirst
      cases hW : (if validateSql (parseModelContent content).2 = true then
          some ((parseModelContent content).2)
        else
          match pySplit uq with
          | [] => none
          | w :: rest =>
            some (fallbackBase w ++ (if rest.isEmpty then [] else fallbackOr w))) with
      | none =>
        rw [hW] at hfirst
        exact absurd hfirst (by simp)
      | some sqlF =>
        rw [hW] at hfirst
        replace hfirst : some ((sqlF, (parseModelContent content).1, tokens),
            if cache.entries.length < MAX_CACHE_SIZE then
              (⟨cache.entries ++ [(uq, (sqlF, (parseModelContent content).1))]⟩ : SqlCache)
            else cache) = some (r, cache2) := hfirst
        rw [if_pos hcap] at hfirst
        have heq := Option.some_inj.mp hfirst
        rw [Prod.mk.injEq] at heq
        obtain ⟨hr, hc⟩ := heq
        subst hc
        subst hr
        have hlook2 : sqlCacheLookup
            ⟨cache.entries ++ [(uq, (sqlF, (parseModelContent content).1))]⟩ uq =
            some (sqlF, (parseModelContent content).1) := by
          unfold sqlCacheLookup
          rw [List.find?_append]
          have hf1 : cache.entries.find? (fun e => decide (e.1 = uq)) = none := by
            unfold sqlCacheLookup at hlook
            cases hfind : cache.entries.find? (fun e => decide (e.1 = uq)) with
            | none => rfl
            | some e =>
              rw [hfind] at hlook
              exact absurd hlook (by simp)
          rw [hf1]
          simp [List.find?]
        unfold get_sql_from_deepseek
        rw [hlook2]

/-- C9 witness: a concrete first call (valid model text, 42 tokens) followed by
a second call in which the model service is unavailable (`none`); the second
call still returns the cached text at cost 0. -/
theorem c9_witness :
    (get_sql_from_deepseek ⟨[]⟩ (("science fiction").data)
        (some ((("SELECT TOP 15 x FROM Table_TopBooksData").data), 42)) =
      some (((("SELECT TOP 15 x FROM Table_TopBooksData").data), none, 42),
        ⟨[((("science fiction").data),
          ((("SELECT TOP 15 x FROM Table_TopBooksData").data), none))]⟩)) ∧
    ((⟨[]⟩ : SqlCache).entries.length < MAX_CACHE_SIZE) ∧
    (get_sql_from_deepseek
        ⟨[((("science fiction").data),
          ((("SELECT TOP 15 x FROM Table_TopBooksData").data), none))]⟩
        (("science fiction").data) none =
      some (((("SELECT TOP 15 x FROM Table_TopBooksData").data), none, 0),
        ⟨[((("science fiction").data),
          ((("SELECT TOP 15 x FROM Table_TopBooksData").data), none))]⟩)) := by
  refine ⟨rfl, by decide, ?_⟩
  exact c9_cache_roundtrip ⟨[]⟩ (("science fiction").data)
    (some ((("SELECT TOP 15 x FROM Table_TopBooksData").data), 42))
    ((("SELECT TOP 15 x FROM Table_TopBooksData").data), none, 42)
    ⟨[((("science fiction").data),
      ((("SELECT TOP 15 x FROM Table_TopBooksData").data), none))]⟩
    rfl (by decide) none

/-! ### Filter lemmas (C6, C10) -/

theorem filterBooks_hit_eq (fc : FilterCache) (uq : List Char) (books : List Book)
    (resp : Option (List Char)) (idxs : List Nat)
    (hhit : filterCacheLookup fc (uq, (books.take 20).map (fun b => b.title)) = some idxs) :
    filter_books_with_deepseek fc uq books resp = (idxs, fc) := by
  simp only [filter_books_with_deepseek]
  rw [hhit]

theorem filterBooks_fail_eq (fc : FilterCache) (uq : List Char) (books : List Book)
    (hmiss : filterCacheLookup fc (uq, (books.take 20).map (fun b => b.title)) = none) :
    filter_books_with_deepseek fc uq books none = (List.range (books.take 20).length, fc) := by
  simp only [filter_books_with_deepseek]
  rw [hmiss]

theorem filterBooks_miss_eq (fc : FilterCache) (uq content : List Char) (books : List Book)
    (hmiss : filterCacheLookup fc (uq, (books.take 20).map (fun b => b.title)) = none) :
    filter_books_with_deepseek fc uq books (some content) =
      match arrSearch content with
      | none => (List.range (books.take 20).length, fc)
      | some none => (List.range (books.take 20).length, fc)
      | some (some xs) =>
        ((xs.filter (fun i => decide (0 < i) && decide (i ≤ (books.take 20).length))).map
            (fun i => i - 1),
          if fc.entries.length < MAX_FILTER_CACHE_SIZE then
            ⟨fc.entries ++ [((uq, (books.take 20).map (fun b => b.title)),
              (xs.filter (fun i => decide (0 < i) &&
                decide (i ≤ (books.take 20).length))).map (fun i => i - 1))]⟩
          else fc) := by
  simp only [filter_books_with_deepseek]
  rw [hmiss]

theorem mem_parsed_lt (books : List Book) (xs : List Nat) (i : Nat)
    (hi : i ∈ (xs.filter (fun i => decide (0 < i) &&
      decide (i ≤ (books.take 20).length))).map (fun i => i - 1)) :
    i < min 20 books.length := by
  simp only [List.mem_map, List.mem_filter, Bool.and_eq_true, decide_eq_true_eq] at hi
  obtain ⟨n, ⟨_, hpos, hle⟩, rfl⟩ := hi
  rw [List.length_take] at hle
  omega

/-! ### C6 -/

/-- C6: under the invariant that every cached index list is in bounds for its
own key (which the bounds check establishes at every write), every index that
`filter_books_with_deepseek` returns — from a cache hit, from the fail-open
fallback, or from parsing a model response — lies in
`[0, min(20, len(candidates)) - 1]`, and the invariant is preserved.
Out-of-range response elements are discarded by the
`0 < i <= len(books_to_process)` check; non-integer elements cannot survive
the digits-only array extraction. -/
theorem c6_filter_indices_bounded (fc : FilterCache) (uq : List Char)
    (books : List Book) (resp : Option (List Char)) (hval : FilterCacheValid fc) :
    (∀ i ∈ (filter_books_with_deepseek fc uq books resp).1, i < min 20 books.length) ∧
      FilterCacheValid (filter_books_with_deepseek fc uq books resp).2 := by
  cases hlook : filterCacheLookup fc (uq, (books.take 20).map (fun b => b.title)) with
  | some idxs =>
    rw [filterBooks_hit_eq fc uq books resp idxs hlook]
    refine ⟨?_, hval⟩
    intro i hi
    unfold filterCacheLookup at hlook
    cases hfind : fc.entries.find?
        (fun e => decide (e.1 = (uq, (books.take 20).map (fun b => b.title)))) with
    | none =>
      rw [hfind] at hlook
      exact absurd hlook (by simp)
    | some e =>
      rw [hfind] at hlook
      have hmem := List.mem_of_find?_eq_some hfind
      have hpe := List.find?_some hfind
      simp only [decide_eq_true_eq] at hpe
      have he2 : e.2 = idxs := by simpa using hlook
      have hb := hval e hmem i (by rw [he2]; exact hi)
      rw [hpe] at hb
      simpa [List.length_take] using hb
  | none =>
    cases resp with
    | none =>
      rw [filterBooks_fail_eq fc uq books hlook]
      refine ⟨?_, hval⟩
      intro i hi
      rw [List.mem_range, List.length_take] at hi
      exact hi
    | some content =>
      rw [filterBooks_miss_eq fc uq content books hlook]
      cases harr : arrSearch content with
      | none =>
        refine ⟨?_, hval⟩
        intro i hi
        rw [List.mem_range, List.length_take] at hi
        exact hi
      | some o =>
        cases o with
        | none =>
          refine ⟨?_, hval⟩
          intro i hi
          rw [List.mem_range, List.length_take] at hi
          exact hi
        | some xs =>
          refine ⟨fun i hi => mem_parsed_lt books xs i hi, ?_⟩
          show FilterCacheValid (if fc.entries.length < MAX_FILTER_CACHE_SIZE then
              (⟨fc.entries ++ [((uq, (books.take 20).map (fun b => b.title)),
                (xs.filter (fun i => decide (0 < i) &&
                  decide (i ≤ (books.take 20).length))).map (fun i => i - 1))]⟩ : FilterCache)
            else fc)
          by_cases hcap : fc.entries.length < MAX_FILTER_CACHE_SIZE
          · rw [if_pos hcap]
            intro e he i hi
            rcases List.mem_append.mp he with h | h
            · exact hval e h i hi
            · have he' : e = ((uq, (books.take 20).map (fun b => b.title)),
                  (xs.filter (fun i => decide (0 < i) &&
                    decide (i ≤ (books.take 20).length))).map (fun i => i - 1)) := by
                simpa using h
              subst he'
              have := mem_parsed_lt books xs i hi
              simp only [List.length_map, List.length_take]
              omega
          · rw [if_neg hcap]
            exact hval

/-- C6 witness: the theorem applied at a concrete one-candidate list with an
unavailable model (fail-open path): the only returned index is 0, within
`min 20 1 = 1`. -/
theorem c6_witness :
    FilterCacheValid ⟨[]⟩ ∧
      ((∀ i ∈ (filter_books_with_deepseek ⟨[]⟩ (("q").data)
          [⟨(("t1").data)⟩] none).1, i < min 20 [(⟨(("t1").data)⟩ : Book)].length) ∧
        FilterCacheValid (filter_books_with_deepseek ⟨[]⟩ (("q").data)
          [⟨(("t1").data)⟩] none).2) :=
  ⟨fun e he => absurd he (List.not_mem_nil e),
    c6_filter_indices_bounded ⟨[]⟩ (("q").data) [⟨(("t1").data)⟩] none
      (fun e he => absurd he (List.not_mem_nil e))⟩

/-! ### C10 -/

theorem count_map_pred (l : List Nat) (n : Nat) (hn : 0 < n) (hl : ∀ m ∈ l, 0 < m) :
    (l.map (fun i => i - 1)).count (n - 1) = l.count n := by
  induction l with
  | nil => rfl
  | cons m t ih =>
    have hm : 0 < m := hl m (by simp)
    have iht := ih (fun x hx => hl x (by simp [hx]))
    simp only [List.map_cons, List.count_cons, iht]
    congr 1
    by_cases hmn : m = n
    · subst hmn
      simp
    · have h1 : (m - 1 == n - 1) = false := by
        rw [beq_eq_false_iff_ne]
        omega
      have h2 : (m == n) = false := beq_eq_false_iff_ne.mpr hmn
      rw [h1, h2]

theorem count_finalBooksFor (db : List Nat) (idxs : List Nat) (i : Nat)
    (hi : i < db.length) :
    idxs.count i ≤ (finalBooksFor db idxs).count (db.get ⟨i, hi⟩) := by
  induction idxs with
  | nil => simp [finalBooksFor]
  | cons j t ih =>
    unfold finalBooksFor at ih ⊢
    rw [List.filterMap_cons]
    by_cases hji : j = i
    · subst hji
      rw [List.get?_eq_get hi]
      rw [List.count_cons, List.count_cons]
      simp only [beq_self_eq_true, if_true]
      omega
    · have hjif : (j == i) = false := beq_eq_false_iff_ne.mpr hji
      cases hget : db.get? j with
      | none =>
        rw [List.count_cons, hjif]
        simpa using ih
      | some b =>
        rw [List.count_cons, hjif]
        simp only [Bool.false_eq_true, if_false, Nat.add_zero]
        calc t.count i ≤ (t.filterMap db.get?).count (db.get ⟨i, hi⟩) := ih
          _ ≤ (b :: t.filterMap db.get?).count (db.get ⟨i, hi⟩) := by
              rw [List.count_cons]
              omega

/-- C10: on a cache miss, when the model response parses to the array `xs`,
the returned index list is exactly the in-range elements of `xs`, shifted to
0-based, in response order and *without* de-duplication: for every in-range
number `n`, the index `n - 1` occurs in the result exactly as often as `n`
occurs in the parsed array; consequently the orchestrator's bounds-checked
selection (`finalBooksFor`, `book_service.py:71`) repeats the corresponding
record at least that often in the final list. -/
theorem c10_no_dedup (uq : List Char) (books : List Book) (fc : FilterCache)
    (content : List Char) (xs : List Nat)
    (hmiss : filterCacheLookup fc (uq, (books.take 20).map (fun b => b.title)) = none)
    (hparse : arrSearch content = some (some xs)) :
    (filter_books_with_deepseek fc uq books (some content)).1 =
        (xs.filter (fun i => decide (0 < i) &&
          decide (i ≤ (books.take 20).length))).map (fun i => i - 1) ∧
      (∀ n, 0 < n → n ≤ (books.take 20).length →
        ((filter_books_with_deepseek fc uq books (some content)).1).count (n - 1) =
          xs.count n) ∧
      (∀ (db : List Nat) (i : Nat) (hi : i < db.length),
        ((filter_books_with_deepseek fc uq books (some content)).1).count i ≤
          (finalBooksFor db
            ((filter_books_with_deepseek fc uq books (some content)).1)).count
              (db.get ⟨i, hi⟩)) := by
  have hres : (filter_books_with_deepseek fc uq books (some content)).1 =
      (xs.filter (fun i => decide (0 < i) &&
        decide (i ≤ (books.take 20).length))).map (fun i => i - 1) := by
    rw [filterBooks_miss_eq fc uq content books hmiss, hparse]
  refine ⟨hres, ?_, ?_⟩
  · intro n hn hle
    rw [hres]
    rw [count_map_pred _ n hn (fun m hm => by
      rw [List.mem_filter, Bool.and_eq_true, decide_eq_true_eq, decide_eq_true_eq] at hm
      exact hm.2.1)]
    rw [List.count_filter (by
      rw [Bool.and_eq_true, decide_eq_true_eq, decide_eq_true_eq]
      exact ⟨hn, hle⟩)]
  · intro db i hi
    exact count_finalBooksFor db _ i hi

/-- C10 witness: a concrete response `[2, 2, 3, 9]` over three candidates
yields `[1, 1, 2]` — the duplicate survives and index 1 repeats in the final
selection. -/
theorem c10_witness :
    (filterCacheLookup ⟨[]⟩ ((("q").data),
        ([⟨(("t1").data)⟩, ⟨(("t2").data)⟩, ⟨(("t3").data)⟩] :
          List Book).take 20 |>.map (fun b => b.title)) = none) ∧
      (arrSearch (("[2, 2, 3, 9]").data) = some (some [2, 2, 3, 9])) ∧
      (filter_books_with_deepseek ⟨[]⟩ (("q").data)
          [⟨(("t1").data)⟩, ⟨(("t2").data)⟩, ⟨(("t3").data)⟩]
          (some (("[2, 2, 3, 9]").data))).1 =
        ([2, 2, 3, 9].filter (fun i => decide (0 < i) && decide (i ≤
          (([⟨(("t1").data)⟩, ⟨(("t2").data)⟩, ⟨(("t3").data)⟩] :
            List Book).take 20).length))).map (fun i => i - 1) ∧
      ((filter_books_with_deepseek ⟨[]⟩ (("q").data)
          [⟨(("t1").data)⟩, ⟨(("t2").data)⟩, ⟨(("t3").data)⟩]
          (some (("[2, 2, 3, 9]").data))).1).count 1 = 2 := by
  have h := c10_no_dedup (("q").data)
    [⟨(("t1").data)⟩, ⟨(("t2").data)⟩, ⟨(("t3").data)⟩] ⟨[]⟩
    (("[2, 2, 3, 9]").data) [2, 2, 3, 9] rfl (by decide)
  refine ⟨rfl, by decide, h.1, ?_⟩
  have h2 := h.2.1 2 (by decide) (by decide)
  rw [show (2 : Nat) - 1 = 1 from rfl] at h2
  rw [h2]
  decide
